import Mathlib

/-!
Verification of the telegram-bot-analyse repository.

The development shallowly embeds the three components the claims are about:

* `normalizeSql` and `llmLoopF`/`get_sql_from_llm` embed `llm.py`'s
  `get_sql_from_llm` (prompt sending, response normalization, retry loop).
  Python strings are modelled as `List Char` (a Python `str` is a sequence
  of code points).  The HTTP layer is an oracle `resp : Nat → ApiResponse`
  giving the outcome of the n-th POST request; the embedding additionally
  records how many requests were made and which backoff sleeps were
  performed, so that "no network call" and "no backoff sleep" are provable
  statements.
* `findUuidFrom`/`replaceAll`/`swap_video_id_to_creator_id` embed `bot.py`'s
  `swap_video_id_to_creator_id` (UUID regex search, DB lookup, textual
  replacement), with the database as an explicit environment `DbEnv` and a
  counter of executed lookup queries.
* `handle_query` embeds the reply-selection logic of `bot.py`'s
  `handle_query` message handler.
-/

/-! ## Definitions -/

/-- The characters stripped by Python's `str.strip()` (ASCII range). -/
def isPySpace (c : Char) : Bool :=
  c == ' ' || c == '\t' || c == '\n' || c == '\r' || c.toNat == 11 || c.toNat == 12

/-- Remove the trailing run of characters satisfying `p` (Python `rstrip`). -/
def dropTrailing (p : Char → Bool) : List Char → List Char
  | [] => []
  | c :: rest =>
    let t := dropTrailing p rest
    if t.isEmpty && p c then [] else c :: t

/-- Python `str.strip()`: drop leading and trailing whitespace. -/
def pyStrip (l : List Char) : List Char :=
  dropTrailing isPySpace (l.dropWhile isPySpace)

/-- Python `str.lower()` (ASCII-adequate model). -/
def pyLower (l : List Char) : List Char := l.map Char.toLower

/-- Python `str.startswith`. -/
def pyStartsWith (l pat : List Char) : Bool := pat.isPrefixOf l

/-- Python `str.endswith`. -/
def pyEndsWith (l pat : List Char) : Bool := pat.isSuffixOf l

/-- Python truthiness of an optional string (`None` and `""` are falsy). -/
def pyTruthy : Option (List Char) → Bool
  | none => false
  | some s => !s.isEmpty

/-- The code-fence marker tested by `sql_query.lower().startswith("```sql")`. -/
def fenceSql : List Char := "```sql".toList

/-- The bare fence marker tested by `sql_query.endswith("```")`. -/
def fenceMark : List Char := "```".toList

/-- `if sql_query.lower().startswith("```sql"): sql_query = sql_query[5:]` —
note the source slices off five characters of the six-character marker. -/
def stripFence1 (s : List Char) : List Char :=
  if pyStartsWith (pyLower s) fenceSql then s.drop 5 else s

/-- `if sql_query.endswith("```"): sql_query = sql_query[:-3]`. -/
def stripFence2 (s : List Char) : List Char :=
  if pyEndsWith s fenceMark then s.take (s.length - 3) else s

/-- `if sql_query.endswith(';'): sql_query = sql_query[:-1]`. -/
def stripSemi (s : List Char) : List Char :=
  if pyEndsWith s [';'] then s.take (s.length - 1) else s

/-- The full normalization applied to
`result['choices'][0]['message']['content']`: an initial `.strip()`, the
three conditional slices, then the final `.strip()` of the returned value. -/
def normalizeSql (content : List Char) : List Char :=
  pyStrip (stripSemi (stripFence2 (stripFence1 (pyStrip content))))

/-- Outcome of one POST to the chat-completions endpoint, as seen by the
`try`/`except` structure of `get_sql_from_llm`: a parsed successful body, an
`httpx.HTTPStatusError` carrying a status code (raised by
`raise_for_status`), or any other exception (network failure, timeout,
malformed JSON, ...) landing in the generic `except Exception` branch. -/
inductive ApiResponse where
  | success (content : List Char)
  | httpError (status : Nat)
  | otherError
deriving DecidableEq

/-- The status codes the source retries on:
`if e.response.status_code in [429, 500, 502, 503, 504]`. -/
def transientStatuses : List Nat := [429, 500, 502, 503, 504]

/-- Whether a response outcome is one the retry loop treats as transient. -/
def isTransient : ApiResponse → Bool
  | ApiResponse.httpError s => decide (s ∈ transientStatuses)
  | _ => false

/-- Observable outcome of one call of `get_sql_from_llm`: the returned
value, the number of POST requests performed, and the list of backoff
sleeps performed (in order, in seconds). -/
structure LlmRun where
  result : Option (List Char)
  requests : Nat
  sleeps : List ℚ
deriving DecidableEq

/-- The `while attempt <= max_retries` loop of `get_sql_from_llm`.  The
first argument after `maxRetries` is fuel bounding the remaining number of
iterations; the loop guard `attempt ≤ maxRetries` is checked explicitly, so
the function agrees with the source loop whenever
`maxRetries + 1 - attempt ≤ fuel` (see `llmLoopF_fuel_irrel`), and
`get_sql_from_llm` below supplies `maxRetries + 1` at `attempt = 0`. -/
def llmLoopF (resp : Nat → ApiResponse) (maxRetries : Nat) :
    Nat → Nat → ℚ → LlmRun
  | 0, _, _ => ⟨none, 0, []⟩
  | fuel + 1, attempt, backoff =>
    if attempt ≤ maxRetries then
      match resp attempt with
      | ApiResponse.success content => ⟨some (normalizeSql content), 1, []⟩
      | ApiResponse.httpError status =>
        if status ∈ transientStatuses then
          if attempt = maxRetries then ⟨none, 1, []⟩
          else
            let r := llmLoopF resp maxRetries fuel (attempt + 1) (backoff * 2)
            ⟨r.result, r.requests + 1, backoff :: r.sleeps⟩
        else ⟨none, 1, []⟩
      | ApiResponse.otherError => ⟨none, 1, []⟩
    else ⟨none, 0, []⟩

/-- `get_sql_from_llm(user_query, max_retries, initial_backoff)`:
`key` models `AGENTPLATFORM_KEY` (`None` or a string), `schema` models the
value returned by `get_schema()` (which is `""` when the schema file is
missing).  The two leading guards are the source's
`if not AGENTPLATFORM_KEY: return None` and `if not schema: return None`;
only past them does the request loop run. -/
def get_sql_from_llm (key : Option (List Char)) (schema : List Char)
    (resp : Nat → ApiResponse) (maxRetries : Nat) (initialBackoff : ℚ) : LlmRun :=
  if pyTruthy key = false then ⟨none, 0, []⟩
  else if schema.isEmpty then ⟨none, 0, []⟩
  else llmLoopF resp maxRetries (maxRetries + 1) 0 initialBackoff

/-- Code-point ranges of the Unicode decimal-digit category Nd (Unicode
14.0.0): the class matched by Python's `\d` in a `str` pattern compiled
without `re.ASCII`, as in the source regex. -/
def ndRanges : List (Nat × Nat) :=
  [(48, 57), (1632, 1641), (1776, 1785), (1984, 1993), (2406, 2415),
   (2534, 2543), (2662, 2671), (2790, 2799), (2918, 2927), (3046, 3055),
   (3174, 3183), (3302, 3311), (3430, 3439), (3558, 3567), (3664, 3673),
   (3792, 3801), (3872, 3881), (4160, 4169), (4240, 4249), (6112, 6121),
   (6160, 6169), (6470, 6479), (6608, 6617), (6784, 6793), (6800, 6809),
   (6992, 7001), (7088, 7097), (7232, 7241), (7248, 7257), (42528, 42537),
   (43216, 43225), (43264, 43273), (43472, 43481), (43504, 43513),
   (43600, 43609), (44016, 44025), (65296, 65305), (66720, 66729),
   (68912, 68921), (69734, 69743), (69872, 69881), (69942, 69951),
   (70096, 70105), (70384, 70393), (70736, 70745), (70864, 70873),
   (71248, 71257), (71360, 71369), (71472, 71481), (71904, 71913),
   (72016, 72025), (72784, 72793), (73040, 73049), (73120, 73129),
   (92768, 92777), (92864, 92873), (93008, 93017), (120782, 120831),
   (123200, 123209), (123632, 123641), (125264, 125273), (130032, 130041)]

/-- Python's `\d` (no `re.ASCII`): any Unicode decimal digit. -/
def isPyDigit (c : Char) : Bool :=
  ndRanges.any fun r => r.1 ≤ c.toNat && c.toNat ≤ r.2

/-- The character class `[a-f\d]` of the UUID regex: a Unicode decimal
digit or a lowercase ASCII hex letter. -/
def isUuidClassChar (c : Char) : Bool :=
  isPyDigit c || (97 ≤ c.toNat && c.toNat ≤ 102)

/-- Positions of the hyphens inside the 36-character UUID pattern. -/
def hyphenPos (i : Nat) : Bool := i == 8 || i == 13 || i == 18 || i == 23

/-- Whether a character list is exactly one match of the source regex
`([a-f\d]{8}-[a-f\d]{4}-[a-f\d]{4}-[a-f\d]{4}-[a-f\d]{12})`. -/
def uuidShape (l : List Char) : Bool :=
  l.length == 36 &&
    (List.range 36).all fun i =>
      if hyphenPos i then l.getD i ' ' == '-' else isUuidClassChar (l.getD i ' ')

/-- `re.search` for the fixed-length UUID pattern: the leftmost window of 36
characters matching `uuidShape`, scanning start positions left to right. -/
def findUuidFrom : List Char → Option (List Char)
  | [] => none
  | c :: rest =>
    if uuidShape ((c :: rest).take 36) then some ((c :: rest).take 36)
    else findUuidFrom rest

/-- One scanning pass of Python `str.replace(old, new)`: at each position,
if (nonempty) `old` is a prefix there, emit `new` and skip past the
occurrence, else keep the character and move on.  The `Nat` argument is
fuel bounding the number of scanning steps; every step consumes at least
one character, so the caller's fuel `s.length` is never exhausted. -/
def replaceAllF (old new : List Char) : Nat → List Char → List Char
  | _, [] => []
  | 0, s => s
  | fuel + 1, c :: rest =>
    if old.isPrefixOf (c :: rest) && !old.isEmpty then
      new ++ replaceAllF old new fuel (rest.drop (old.length - 1))
    else
      c :: replaceAllF old new fuel rest

/-- Python `str.replace(old, new)`: replace every non-overlapping occurrence
of `old`, scanning left to right (the source's
`query.replace(entity_id_str, str(creator_id_from_video))`). -/
def replaceAll (old new s : List Char) : List Char :=
  replaceAllF old new s.length s

/-- Database environment seen by the Rewriter: whether
`get_db_connection()` succeeds, and the outcome of the lookup query
`SELECT creator_id FROM videos WHERE id = '<uuid>'` for a given UUID text:
an exception (`Except.error`), or the `fetchval` result — `none` models
both "no row" and the `None` that `execute_query` returns after catching an
error, `some v` a returned creator identifier whose `str(...)` form is `v`. -/
structure DbEnv where
  connAvailable : Bool
  lookup : List Char → Except Unit (Option (List Char))

/-- Observable outcome of `swap_video_id_to_creator_id`: the returned text
and the number of lookup queries executed against the database. -/
structure SwapResult where
  text : List Char
  lookups : Nat
deriving DecidableEq

/-- `bot.py`'s `swap_video_id_to_creator_id`: search for a UUID; if none,
return the query; otherwise connect (failing open when the connection is
unavailable), run the lookup, and on a truthy creator id replace every
occurrence of the UUID text; every other branch returns the query text
unchanged. -/
def swap_video_id_to_creator_id (env : DbEnv) (query : List Char) : SwapResult :=
  match findUuidFrom query with
  | none => ⟨query, 0⟩
  | some entityId =>
    if env.connAvailable = false then ⟨query, 0⟩
    else
      match env.lookup entityId with
      | Except.error _ => ⟨query, 1⟩
      | Except.ok creatorId =>
        match creatorId with
        | some v => if v.isEmpty then ⟨query, 1⟩ else ⟨replaceAll entityId v query, 1⟩
        | none => ⟨query, 1⟩

/-- The distinct user-facing replies of `handle_query`. -/
inductive Reply where
  | couldNotUnderstand
  | dbConnectFailed
  | resultValue (v : List Char)
  | noResult
  | internalError
deriving DecidableEq

/-- Collaborator results consumed by `handle_query` for one message: the
value returned by `get_sql_from_llm`, whether `get_db_connection()`
succeeds, and the `execute_query` result for the generated SQL. -/
structure BotEnv where
  llmResult : Option (List Char)
  dbConn : Bool
  execResult : Option (List Char)

/-- The reply selection of `handle_query`:
`if not sql_query or sql_query == "ERROR"` answers "could not understand";
a failed connection answers the connection message; a `None` query result
answers "no result"; otherwise the value is echoed.  `Reply.internalError`
is the `except Exception` branch, reachable only by an exception. -/
def handle_query (env : BotEnv) : Reply :=
  match env.llmResult with
  | none => Reply.couldNotUnderstand
  | some sql =>
    if sql.isEmpty || sql == "ERROR".toList then Reply.couldNotUnderstand
    else if env.dbConn = false then Reply.dbConnectFailed
    else
      match env.execResult with
      | some v => Reply.resultValue v
      | none => Reply.noResult

/-- An uppercase hexadecimal letter `A`-`F` (claim C10's wording). -/
def isUpperHex (c : Char) : Bool := 65 ≤ c.toNat && c.toNat ≤ 70

/-- The regex class widened by the uppercase hex letters.  Used only to
state claim C10: a "UUID-shaped token" read case-insensitively, in
contrast to the class `isUuidClassChar` that the source regex uses. -/
def isHexAnyCase (c : Char) : Bool := isUuidClassChar c || isUpperHex c

/-- Case-insensitive variant of `uuidShape`, stating C10's notion of a
UUID-shaped token; the source regex itself matches only `uuidShape`. -/
def uuidShapeMixed (l : List Char) : Bool :=
  l.length == 36 &&
    (List.range 36).all fun i =>
      if hyphenPos i then l.getD i ' ' == '-' else isHexAnyCase (l.getD i ' ')

/-- Concrete video UUID used by witnesses (the spec's worked scenario). -/
def uuidVid : List Char := "11111111-1111-1111-1111-111111111111".toList

/-- Concrete creator UUID used by witnesses. -/
def uuidCr : List Char := "22222222-2222-2222-2222-222222222222".toList

/-- Witness query containing the video UUID twice. -/
def qVid : List Char :=
  "views of 11111111-1111-1111-1111-111111111111 vs 11111111-1111-1111-1111-111111111111".toList

/-- Witness environment: the video UUID resolves to the creator UUID. -/
def envVid : DbEnv :=
  ⟨true, fun u => if u == uuidVid then Except.ok (some uuidCr) else Except.ok none⟩

/-- Witness environment whose lookups find no video. -/
def envNoRow : DbEnv := ⟨true, fun _ => Except.ok none⟩

/-- Witness environment whose lookups raise. -/
def envRaise : DbEnv := ⟨true, fun _ => Except.error ()⟩

/-- Witness query containing no UUID-shaped token. -/
def qPlain : List Char := "how many videos are there in total".toList

/-- Witness query whose only case-insensitive UUID-shaped token carries an
uppercase hex letter. -/
def qUpper : List Char := "a1111111-1111-1111-1111-11111111111F".toList

/-- The ASCII lowercase hexadecimal digits `0`-`9`, `a`-`f`: claim C10's
reading of "lowercase hexadecimal digits", stated only to compare against
the class the source regex actually matches. -/
def isAsciiHexLower (c : Char) : Bool :=
  (48 ≤ c.toNat && c.toNat ≤ 57) || (97 ≤ c.toNat && c.toNat ≤ 102)

/-- An 8-4-4-4-12 token written entirely with Arabic-Indic digits
(U+0660), matched by the source regex through Unicode `\d`. -/
def qArabic : List Char :=
  "٠٠٠٠٠٠٠٠-٠٠٠٠-٠٠٠٠-٠٠٠٠-٠٠٠٠٠٠٠٠٠٠٠٠".toList

/-- Counterexample query for C10: the Arabic-digit token (matched first by
the source regex) followed by a token whose only departure from the ASCII
pattern is the uppercase letter `A`. -/
def qC10 : List Char :=
  ("٠٠٠٠٠٠٠٠-٠٠٠٠-٠٠٠٠-٠٠٠٠-٠٠٠٠٠٠٠٠٠٠٠٠" ++
    " A1111111-1111-1111-1111-111111111111").toList

/-! ## Lemmas and claim theorems -/

lemma dropWhile_idem (p : Char → Bool) (l : List Char) :
    (l.dropWhile p).dropWhile p = l.dropWhile p := by
  induction l with
  | nil => rfl
  | cons c rest ih =>
    cases h : p c with
    | true => simpa [List.dropWhile_cons, h] using ih
    | false => simp [List.dropWhile_cons, h]

lemma dropWhile_eq_cons_head (p : Char → Bool) (l : List Char) (c : Char)
    (rest : List Char) (h : l.dropWhile p = c :: rest) : p c = false := by
  induction l with
  | nil => simp at h
  | cons d l' ih =>
    cases hd : p d with
    | true =>
      apply ih
      simpa [List.dropWhile_cons, hd] using h
    | false =>
      simp only [List.dropWhile_cons, hd, Bool.false_eq_true, if_false] at h
      obtain ⟨rfl, -⟩ := List.cons.injEq .. ▸ h
      exact hd

lemma dropTrailing_idem (p : Char → Bool) (m : List Char) :
    dropTrailing p (dropTrailing p m) = dropTrailing p m := by
  induction m with
  | nil => rfl
  | cons c rest ih =>
    simp only [dropTrailing]
    by_cases h : ((dropTrailing p rest).isEmpty && p c) = true
    · simp [h, dropTrailing]
    · simp only [h, if_false]
      simp only [dropTrailing, ih]
      simp [h]

lemma dropWhile_dropTrailing (p : Char → Bool) (m : List Char)
    (hm : m.dropWhile p = m) :
    (dropTrailing p m).dropWhile p = dropTrailing p m := by
  cases m with
  | nil => rfl
  | cons c rest =>
    have hc : p c = false := dropWhile_eq_cons_head p (c :: rest) c rest hm
    simp only [dropTrailing]
    by_cases h : ((dropTrailing p rest).isEmpty && p c) = true
    · simp [h]
    · simp [h, List.dropWhile_cons, hc]

lemma pyStrip_idem (l : List Char) : pyStrip (pyStrip l) = pyStrip l := by
  unfold pyStrip
  rw [dropWhile_dropTrailing isPySpace _ (dropWhile_idem isPySpace l)]
  exact dropTrailing_idem isPySpace _

lemma pyStrip_normalizeSql (s : List Char) :
    pyStrip (normalizeSql s) = normalizeSql s := by
  unfold normalizeSql
  exact pyStrip_idem _

/-- C3 (counterexample): the normalization does not strip one whole leading
SQL code-fence marker — on `"```sql\nSELECT 1\n```"` it yields
`"l\nSELECT 1"`, keeping the marker's final letter — and it is not
idempotent: a second application changes `normalizeSql "x;;"` (`= "x;"`)
into `"x"`. -/
theorem c3_claim_counterexample :
    normalizeSql ("```sql\nSELECT 1\n```".toList) = "l\nSELECT 1".toList ∧
    normalizeSql ("```sql\nSELECT 1\n```".toList) ≠ "SELECT 1".toList ∧
    normalizeSql (normalizeSql ("x;;".toList)) ≠ normalizeSql ("x;;".toList) :=
  ⟨by decide, by decide, by decide⟩

/-- C3 (amended): when the trimmed content starts (case-insensitively) with
the six-character marker `"```sql"`, the normalization removes only five
leading characters, leaving the marker's final letter (witnessed on
`"```sql\nSELECT 1\n```"`); it strips one trailing fence marker and at most
one trailing `';'`, then trims; it is idempotent on every input whose
normalized form neither starts (case-insensitively) with the fence marker
nor ends with a fence marker or `';'`. -/
theorem c3_normalization_amended :
    normalizeSql ("```sql\nSELECT 1\n```".toList) = "l\nSELECT 1".toList ∧
    ∀ s : List Char,
      pyStartsWith (pyLower (normalizeSql s)) fenceSql = false →
      pyEndsWith (normalizeSql s) fenceMark = false →
      pyEndsWith (normalizeSql s) [';'] = false →
      normalizeSql (normalizeSql s) = normalizeSql s := by
  refine ⟨by decide, fun s h1 h2 h3 => ?_⟩
  have hs : pyStrip (normalizeSql s) = normalizeSql s := pyStrip_normalizeSql s
  show pyStrip (stripSemi (stripFence2 (stripFence1 (pyStrip (normalizeSql s))))) =
    normalizeSql s
  rw [hs]
  simp [stripFence1, stripFence2, stripSemi, h1, h2, h3, hs]

/-- Witness for C3's amended theorem at the input `"SELECT 1"`. -/
theorem c3_normalization_amended_witness :
    (pyStartsWith (pyLower (normalizeSql ("SELECT 1".toList))) fenceSql = false ∧
      pyEndsWith (normalizeSql ("SELECT 1".toList)) fenceMark = false ∧
      pyEndsWith (normalizeSql ("SELECT 1".toList)) [';'] = false) ∧
    normalizeSql (normalizeSql ("SELECT 1".toList)) = normalizeSql ("SELECT 1".toList) :=
  ⟨⟨by decide, by decide, by decide⟩,
    c3_normalization_amended.2 ("SELECT 1".toList) (by decide) (by decide) (by decide)⟩

lemma isTransient_httpError (r : ApiResponse) (h : isTransient r = true) :
    ∃ s, r = ApiResponse.httpError s ∧ s ∈ transientStatuses := by
  cases r with
  | success c => simp [isTransient] at h
  | otherError => simp [isTransient] at h
  | httpError s => exact ⟨s, rfl, by simpa [isTransient] using h⟩

lemma llmLoopF_fuel_irrel (resp : Nat → ApiResponse) (maxRetries : Nat) :
    ∀ f1 f2 a b, maxRetries + 1 - a ≤ f1 → maxRetries + 1 - a ≤ f2 →
      llmLoopF resp maxRetries f1 a b = llmLoopF resp maxRetries f2 a b := by
  intro f1
  induction f1 with
  | zero =>
    intro f2 a b h1 h2
    have ha : ¬ a ≤ maxRetries := by omega
    cases f2 with
    | zero => rfl
    | succ f2' => simp [llmLoopF, ha]
  | succ f ih =>
    intro f2 a b h1 h2
    cases f2 with
    | zero =>
      have ha : ¬ a ≤ maxRetries := by omega
      simp [llmLoopF, ha]
    | succ f2' =>
      by_cases ha : a ≤ maxRetries
      · cases hr : resp a with
        | success c => simp [llmLoopF, ha, hr]
        | otherError => simp [llmLoopF, ha, hr]
        | httpError s =>
          by_cases ht : s ∈ transientStatuses
          · by_cases hm : a = maxRetries
            · subst hm
              simp [llmLoopF, hr, ht]
            · simp only [llmLoopF, ha, hr, ht, hm, if_true, if_false]
              rw [ih f2' (a + 1) (b * 2) (by omega) (by omega)]
          · simp [llmLoopF, ha, hr, ht]
      · simp [llmLoopF, ha]

lemma llmLoopF_sleeps_len (resp : Nat → ApiResponse) (maxRetries : Nat) :
    ∀ f a b, (llmLoopF resp maxRetries f a b).sleeps.length ≤ maxRetries - a := by
  intro f
  induction f with
  | zero => intro a b; simp [llmLoopF]
  | succ f ih =>
    intro a b
    by_cases ha : a ≤ maxRetries
    · cases hr : resp a with
      | success c => simp [llmLoopF, ha, hr]
      | otherError => simp [llmLoopF, ha, hr]
      | httpError s =>
        by_cases ht : s ∈ transientStatuses
        · by_cases hm : a = maxRetries
          · subst hm
            simp [llmLoopF, hr, ht]
          · have := ih (a + 1) (b * 2)
            simp only [llmLoopF, ha, hr, ht, hm]
            simp only [if_true, if_false, List.length_cons]
            omega
        · simp [llmLoopF, ha, hr, ht]
    · simp [llmLoopF, ha]

lemma llmLoopF_requests_pos (resp : Nat → ApiResponse) (maxRetries : Nat)
    (f a : Nat) (b : ℚ) (ha : a ≤ maxRetries) (hf : 1 ≤ f) :
    1 ≤ (llmLoopF resp maxRetries f a b).requests := by
  cases f with
  | zero => omega
  | succ f' =>
    cases hr : resp a with
    | success c => simp [llmLoopF, ha, hr]
    | otherError => simp [llmLoopF, ha, hr]
    | httpError s =>
      by_cases ht : s ∈ transientStatuses
      · by_cases hm : a = maxRetries
        · subst hm
          simp [llmLoopF, hr, ht]
        · simp only [llmLoopF, ha, hr, ht, hm, if_true, if_false]
          omega
      · simp [llmLoopF, ha, hr, ht]

lemma llmLoopF_requests_eq (resp : Nat → ApiResponse) (maxRetries : Nat) :
    ∀ f a b, a ≤ maxRetries → maxRetries + 1 - a ≤ f →
      (llmLoopF resp maxRetries f a b).requests =
        (llmLoopF resp maxRetries f a b).sleeps.length + 1 := by
  intro f
  induction f with
  | zero => intro a b ha hf; omega
  | succ f ih =>
    intro a b ha hf
    cases hr : resp a with
    | success c => simp [llmLoopF, ha, hr]
    | otherError => simp [llmLoopF, ha, hr]
    | httpError s =>
      by_cases ht : s ∈ transientStatuses
      · by_cases hm : a = maxRetries
        · subst hm
          simp [llmLoopF, hr, ht]
        · have := ih (a + 1) (b * 2) (by omega) (by omega)
          simp only [llmLoopF, ha, hr, ht, hm, if_true, if_false, List.length_cons]
          omega
      · simp [llmLoopF, ha, hr, ht]

lemma llmLoopF_sleeps_getD (resp : Nat → ApiResponse) (maxRetries : Nat) :
    ∀ f a b i, i < (llmLoopF resp maxRetries f a b).sleeps.length →
      (llmLoopF resp maxRetries f a b).sleeps.getD i 0 = b * 2 ^ i := by
  intro f
  induction f with
  | zero => intro a b i hi; simp [llmLoopF] at hi
  | succ f ih =>
    intro a b i hi
    by_cases ha : a ≤ maxRetries
    · cases hr : resp a with
      | success c => simp [llmLoopF, ha, hr] at hi
      | otherError => simp [llmLoopF, ha, hr] at hi
      | httpError s =>
        by_cases ht : s ∈ transientStatuses
        · by_cases hm : a = maxRetries
          · subst hm
            simp [llmLoopF, hr, ht] at hi
          · simp only [llmLoopF, ha, hr, ht, hm, if_true, if_false] at hi ⊢
            cases i with
            | zero => simp
            | succ i' =>
              simp only [List.length_cons, Nat.succ_lt_succ_iff] at hi
              have := ih (a + 1) (b * 2) i' hi
              simp only [List.getD_cons_succ]
              rw [this]
              ring
        · simp [llmLoopF, ha, hr, ht] at hi
    · simp [llmLoopF, ha] at hi

lemma llmLoopF_sleeps_transient (resp : Nat → ApiResponse) (maxRetries : Nat) :
    ∀ f a b i, i < (llmLoopF resp maxRetries f a b).sleeps.length →
      isTransient (resp (a + i)) = true := by
  intro f
  induction f with
  | zero => intro a b i hi; simp [llmLoopF] at hi
  | succ f ih =>
    intro a b i hi
    by_cases ha : a ≤ maxRetries
    · cases hr : resp a with
      | success c => simp [llmLoopF, ha, hr] at hi
      | otherError => simp [llmLoopF, ha, hr] at hi
      | httpError s =>
        by_cases ht : s ∈ transientStatuses
        · by_cases hm : a = maxRetries
          · subst hm
            simp [llmLoopF, hr, ht] at hi
          · simp only [llmLoopF, ha, hr, ht, hm, if_true, if_false] at hi
            cases i with
            | zero => simp [hr, isTransient, ht]
            | succ i' =>
              simp only [List.length_cons, Nat.succ_lt_succ_iff] at hi
              have := ih (a + 1) (b * 2) i' hi
              have harr : a + 1 + i' = a + (i' + 1) := by omega
              rw [harr] at this
              exact this
        · simp [llmLoopF, ha, hr, ht] at hi
    · simp [llmLoopF, ha] at hi

lemma llmLoopF_skip (resp : Nat → ApiResponse) (maxRetries : Nat) :
    ∀ k f a b,
      (∀ i, i < k → isTransient (resp (a + i)) = true) →
      a + k ≤ maxRetries → maxRetries + 1 - a ≤ f →
      (llmLoopF resp maxRetries f a b).result =
        (llmLoopF resp maxRetries (f - k) (a + k) (b * 2 ^ k)).result ∧
      (llmLoopF resp maxRetries f a b).requests =
        (llmLoopF resp maxRetries (f - k) (a + k) (b * 2 ^ k)).requests + k := by
  intro k
  induction k with
  | zero =>
    intro f a b _ _ _
    simp
  | succ k ih =>
    intro f a b htr hk hf
    have ht0 : isTransient (resp a) = true := by
      have := htr 0 (by omega)
      simpa using this
    obtain ⟨s, hr, hs⟩ := isTransient_httpError (resp a) ht0
    have ha : a ≤ maxRetries := by omega
    have hm : ¬ a = maxRetries := by omega
    cases f with
    | zero => omega
    | succ f' =>
      have ihs := ih f' (a + 1) (b * 2)
        (fun i hi => by
          have := htr (i + 1) (by omega)
          have harr : a + (i + 1) = a + 1 + i := by omega
          rw [harr] at this
          exact this)
        (by omega) (by omega)
      have harr2 : a + 1 + k = a + (k + 1) := by omega
      have harr3 : f' - k = f' + 1 - (k + 1) := by omega
      have harr4 : b * 2 * 2 ^ k = b * 2 ^ (k + 1) := by ring
      rw [harr2, harr3, harr4] at ihs
      simp only [llmLoopF, ha, hr, hs, hm, if_true, if_false]
      refine ⟨ihs.1, ?_⟩
      rw [ihs.2]
      omega

lemma get_sql_from_llm_run (key : Option (List Char)) (schema : List Char)
    (resp : Nat → ApiResponse) (maxRetries : Nat) (b : ℚ)
    (hkey : pyTruthy key = true) (hschema : schema.isEmpty = false) :
    get_sql_from_llm key schema resp maxRetries b =
      llmLoopF resp maxRetries (maxRetries + 1) 0 b := by
  simp [get_sql_from_llm, hkey, hschema]

/-- C1 (counterexample): a network error without an HTTP status (the
generic `except Exception` branch) and a 5xx status outside the retried
list (501) are each answered by an immediate `None` after a single request
with no backoff sleep — they are not retried at all. -/
theorem c1_claim_counterexample :
    get_sql_from_llm (some ("k".toList)) ("s".toList)
      (fun _ => ApiResponse.otherError) 3 5 = ⟨none, 1, []⟩ ∧
    get_sql_from_llm (some ("k".toList)) ("s".toList)
      (fun _ => ApiResponse.httpError 501) 3 5 = ⟨none, 1, []⟩ :=
  ⟨by decide, by decide⟩

/-- C1 (amended): for every call with default bounds (`max_retries = 3`,
`initial_backoff = 5`), responses with status in `[429, 500, 502, 503,
504]` are retried up to 3 additional attempts: at most 3 backoff sleeps and
4 requests occur, the i-th sleep is `5 * 2 ^ i` seconds, every retry is
preceded by a response with a status from that list, and while the budget
lasts each such response does trigger a further request. -/
theorem c1_retry_policy (key : Option (List Char)) (schema : List Char)
    (resp : Nat → ApiResponse)
    (hkey : pyTruthy key = true) (hschema : schema.isEmpty = false) :
    (get_sql_from_llm key schema resp 3 5).sleeps.length ≤ 3 ∧
    (get_sql_from_llm key schema resp 3 5).requests ≤ 4 ∧
    (∀ i, i < (get_sql_from_llm key schema resp 3 5).sleeps.length →
      (get_sql_from_llm key schema resp 3 5).sleeps.getD i 0 = 5 * 2 ^ i) ∧
    (∀ i, i + 1 < (get_sql_from_llm key schema resp 3 5).requests →
      isTransient (resp i) = true) ∧
    (∀ k, k < 3 → (∀ i, i ≤ k → isTransient (resp i) = true) →
      k + 2 ≤ (get_sql_from_llm key schema resp 3 5).requests) := by
  rw [get_sql_from_llm_run key schema resp 3 5 hkey hschema]
  have hlen := llmLoopF_sleeps_len resp 3 (3 + 1) 0 5
  have hreq := llmLoopF_requests_eq resp 3 (3 + 1) 0 5 (by omega) (by omega)
  refine ⟨by omega, by omega, ?_, ?_, ?_⟩
  · intro i hi
    have := llmLoopF_sleeps_getD resp 3 (3 + 1) 0 5 i hi
    exact this
  · intro i hi
    have := llmLoopF_sleeps_transient resp 3 (3 + 1) 0 5 i (by omega)
    simpa using this
  · intro k hk htr
    have hskip := llmLoopF_skip resp 3 (k + 1) (3 + 1) 0 5
      (fun i hi => by simpa using htr i (by omega)) (by omega) (by omega)
    have hpos := llmLoopF_requests_pos resp 3 (3 + 1 - (k + 1)) (0 + (k + 1))
      (5 * 2 ^ (k + 1)) (by omega) (by omega)
    omega

/-- Witness for C1's amended theorem: one 429 response then a success. -/
theorem c1_retry_policy_witness :
    pyTruthy (some ("k".toList)) = true ∧
    ("s".toList).isEmpty = false ∧
    (get_sql_from_llm (some ("k".toList)) ("s".toList)
      (fun n => if n = 0 then ApiResponse.httpError 429
        else ApiResponse.success ("SELECT 1".toList)) 3 5).sleeps.length ≤ 3 ∧
    (get_sql_from_llm (some ("k".toList)) ("s".toList)
      (fun n => if n = 0 then ApiResponse.httpError 429
        else ApiResponse.success ("SELECT 1".toList)) 3 5).requests ≤ 4 :=
  ⟨by decide, by decide,
    (c1_retry_policy _ _ _ (by decide) (by decide)).1,
    (c1_retry_policy _ _ _ (by decide) (by decide)).2.1⟩

/-- C2: with the default bound of 3 retries, a run whose first `k ≤ 3`
responses are transient errors followed by a success returns the
(normalized) successful content, and a run whose first 4 responses are all
transient errors returns `None`. -/
theorem c2_eventual_success (key : Option (List Char)) (schema : List Char)
    (resp : Nat → ApiResponse)
    (hkey : pyTruthy key = true) (hschema : schema.isEmpty = false) :
    (∀ k c, k ≤ 3 → (∀ i, i < k → isTransient (resp i) = true) →
      resp k = ApiResponse.success c →
      (get_sql_from_llm key schema resp 3 5).result = some (normalizeSql c)) ∧
    ((∀ i, i ≤ 3 → isTransient (resp i) = true) →
      (get_sql_from_llm key schema resp 3 5).result = none) := by
  rw [get_sql_from_llm_run key schema resp 3 5 hkey hschema]
  constructor
  · intro k c hk htr hsucc
    have hskip := llmLoopF_skip resp 3 k (3 + 1) 0 5
      (fun i hi => by simpa using htr i hi) (by omega) (by omega)
    rw [hskip.1]
    have h0k : (0 : Nat) + k = k := by omega
    rw [h0k]
    obtain ⟨f', hf'⟩ : ∃ f', 3 + 1 - k = f' + 1 := ⟨3 - k, by omega⟩
    rw [hf']
    simp [llmLoopF, hk, hsucc]
  · intro htr
    have hskip := llmLoopF_skip resp 3 3 (3 + 1) 0 5
      (fun i hi => by simpa using htr i (by omega)) (by omega) (by omega)
    rw [hskip.1]
    have h03 : (0 : Nat) + 3 = 3 := rfl
    rw [h03]
    obtain ⟨f', hf'⟩ : ∃ f', 3 + 1 - 3 = f' + 1 := ⟨0, rfl⟩
    rw [hf']
    obtain ⟨s, hr, hs⟩ := isTransient_httpError (resp 3) (htr 3 (by omega))
    simp [llmLoopF, hr, hs]

/-- Witness for C2: three 500 responses then a success with content
`"SELECT 1"`; the translator returns that content. -/
theorem c2_eventual_success_witness :
    (get_sql_from_llm (some ("k".toList)) ("s".toList)
      (fun n => if n < 3 then ApiResponse.httpError 500
        else ApiResponse.success ("SELECT 1".toList)) 3 5).result =
      some (normalizeSql ("SELECT 1".toList)) ∧
    normalizeSql ("SELECT 1".toList) = "SELECT 1".toList :=
  ⟨(c2_eventual_success _ _ _ (by decide) (by decide)).1 3 ("SELECT 1".toList)
      (by omega) (by decide) (by decide),
    by decide⟩

/-- C4: a non-transient client-error response (4xx, not 429) on the first
request makes the translator return `None` after exactly one request and no
backoff sleep. -/
theorem c4_permanent_error_fails_fast (key : Option (List Char))
    (schema : List Char) (resp : Nat → ApiResponse) (s : Nat)
    (hkey : pyTruthy key = true) (hschema : schema.isEmpty = false)
    (hresp : resp 0 = ApiResponse.httpError s)
    (h400 : 400 ≤ s) (h500 : s < 500) (h429 : s ≠ 429) :
    get_sql_from_llm key schema resp 3 5 = ⟨none, 1, []⟩ := by
  rw [get_sql_from_llm_run key schema resp 3 5 hkey hschema]
  have hnt : s ∉ transientStatuses := by
    simp only [transientStatuses, List.mem_cons, List.not_mem_nil, or_false]
    omega
  simp [llmLoopF, hresp, hnt]

/-- Witness for C4 at status 400. -/
theorem c4_permanent_error_fails_fast_witness :
    get_sql_from_llm (some ("k".toList)) ("s".toList)
      (fun _ => ApiResponse.httpError 400) 3 5 = ⟨none, 1, []⟩ :=
  c4_permanent_error_fails_fast _ _ _ 400 (by decide) (by decide) rfl
    (by omega) (by omega) (by omega)

/-- C9: with a missing credential (`None` or empty key) or an empty schema
text, `get_sql_from_llm` returns `None` having made zero requests and zero
sleeps — no network call happens. -/
theorem c9_missing_config_no_network (key : Option (List Char))
    (schema : List Char) (resp : Nat → ApiResponse) (maxRetries : Nat) (b : ℚ) :
    get_sql_from_llm none schema resp maxRetries b = ⟨none, 0, []⟩ ∧
    get_sql_from_llm (some []) schema resp maxRetries b = ⟨none, 0, []⟩ ∧
    get_sql_from_llm key [] resp maxRetries b = ⟨none, 0, []⟩ := by
  refine ⟨by simp [get_sql_from_llm, pyTruthy], by simp [get_sql_from_llm, pyTruthy], ?_⟩
  by_cases hk : pyTruthy key = false
  · simp [get_sql_from_llm, hk]
  · simp [get_sql_from_llm, hk]

lemma uuidShape_length (l : List Char) (h : uuidShape l = true) :
    l.length = 36 := by
  simp only [uuidShape, Bool.and_eq_true, beq_iff_eq] at h
  exact h.1

lemma isPyDigit_toNat (c : Char) (h : isPyDigit c = true) :
    ∃ r ∈ ndRanges, r.1 ≤ c.toNat ∧ c.toNat ≤ r.2 := by
  simpa only [isPyDigit, List.any_eq_true, Bool.and_eq_true,
    decide_eq_true_eq] using h

lemma isPyDigit_not_upperHex (c : Char) (h : isPyDigit c = true) :
    isUpperHex c = false := by
  obtain ⟨r, hr, h1, h2⟩ := isPyDigit_toNat c h
  have hall : ∀ r ∈ ndRanges, r.2 < 65 ∨ 70 < r.1 := by decide
  have hsep := hall r hr
  rw [Bool.eq_false_iff]
  intro hcon
  simp only [isUpperHex, Bool.and_eq_true, decide_eq_true_eq] at hcon
  omega

lemma uuidShape_no_upper (l : List Char) (h : uuidShape l = true) :
    ∀ c ∈ l, isUpperHex c = false := by
  intro c hc
  simp only [uuidShape, Bool.and_eq_true, beq_iff_eq, List.all_eq_true,
    List.mem_range] at h
  obtain ⟨hlen, hall⟩ := h
  obtain ⟨i, hi, rfl⟩ := List.mem_iff_getElem.mp hc
  have hi36 : i < 36 := by omega
  have hgd : l.getD i ' ' = l[i] := by
    rw [List.getD_eq_getElem?_getD, List.getElem?_eq_getElem hi]
    rfl
  have hcond := hall i hi36
  by_cases hp : hyphenPos i = true
  · simp only [hp, if_true, beq_iff_eq, hgd] at hcond
    rw [hcond]
    decide
  · simp only [hp, Bool.false_eq_true, if_false, hgd] at hcond
    simp only [isUuidClassChar, Bool.or_eq_true] at hcond
    rcases hcond with hd | hletter
    · exact isPyDigit_not_upperHex _ hd
    · rw [Bool.eq_false_iff]
      intro hcon
      simp only [Bool.and_eq_true, decide_eq_true_eq] at hletter
      simp only [isUpperHex, Bool.and_eq_true, decide_eq_true_eq] at hcon
      omega

lemma uuidShape_mixed (l : List Char) (h : uuidShape l = true) :
    uuidShapeMixed l = true := by
  simp only [uuidShape, Bool.and_eq_true, beq_iff_eq, List.all_eq_true,
    List.mem_range] at h
  obtain ⟨hlen, hall⟩ := h
  simp only [uuidShapeMixed, Bool.and_eq_true, beq_iff_eq, List.all_eq_true,
    List.mem_range]
  refine ⟨hlen, fun i hi => ?_⟩
  have hcond := hall i hi
  by_cases hp : hyphenPos i = true
  · simpa [hp] using hcond
  · simp only [hp, Bool.false_eq_true, if_false] at hcond ⊢
    simp only [isHexAnyCase, Bool.or_eq_true]
    exact Or.inl hcond

lemma findUuidFrom_some (q u : List Char) (h : findUuidFrom q = some u) :
    ∃ i, u = (q.drop i).take 36 ∧ uuidShape u = true ∧
      ∀ j, j < i → uuidShape ((q.drop j).take 36) = false := by
  induction q with
  | nil => simp [findUuidFrom] at h
  | cons c rest ih =>
    by_cases hs : uuidShape ((c :: rest).take 36) = true
    · rw [findUuidFrom, if_pos hs] at h
      obtain rfl : (c :: rest).take 36 = u := Option.some.inj h
      exact ⟨0, by simp, hs, fun j hj => absurd hj (by omega)⟩
    · rw [findUuidFrom, if_neg hs] at h
      obtain ⟨i, hu, hsh, hmin⟩ := ih h
      refine ⟨i + 1, ?_, hsh, ?_⟩
      · rw [List.drop_succ_cons]
        exact hu
      · intro j hj
        cases j with
        | zero =>
          simp only [Bool.not_eq_true] at hs
          simpa using hs
        | succ j' =>
          rw [List.drop_succ_cons]
          exact hmin j' (by omega)

/-- C5: when the first UUID found in the text resolves to a video whose
creator identifier is truthy, the Rewriter returns the text with every
occurrence of that UUID replaced by the creator identifier's text form,
having run exactly one lookup. -/
theorem c5_video_uuid_rewrite (env : DbEnv) (query entityId creator : List Char)
    (hfind : findUuidFrom query = some entityId)
    (hconn : env.connAvailable = true)
    (hlook : env.lookup entityId = Except.ok (some creator))
    (hne : creator.isEmpty = false) :
    swap_video_id_to_creator_id env query = ⟨replaceAll entityId creator query, 1⟩ := by
  simp [swap_video_id_to_creator_id, hfind, hconn, hlook, hne]

/-- Witness for C5: both occurrences of the video UUID are replaced by the
creator UUID. -/
theorem c5_video_uuid_rewrite_witness :
    findUuidFrom qVid = some uuidVid ∧
    swap_video_id_to_creator_id envVid qVid = ⟨replaceAll uuidVid uuidCr qVid, 1⟩ ∧
    replaceAll uuidVid uuidCr qVid =
      "views of 22222222-2222-2222-2222-222222222222 vs 22222222-2222-2222-2222-222222222222".toList :=
  ⟨by decide,
    c5_video_uuid_rewrite envVid qVid uuidVid uuidCr (by decide) rfl rfl (by decide),
    by decide⟩

/-- C6: once a UUID is found, the Rewriter fails open — an unavailable
connection, a lookup exception, a lookup finding no video, and an empty
creator identifier all leave the text unchanged (with no query executed in
the first case). -/
theorem c6_fail_open (env : DbEnv) (query entityId : List Char)
    (hfind : findUuidFrom query = some entityId) :
    (env.connAvailable = false →
      swap_video_id_to_creator_id env query = ⟨query, 0⟩) ∧
    (env.lookup entityId = Except.error () →
      (swap_video_id_to_creator_id env query).text = query) ∧
    (env.lookup entityId = Except.ok none →
      (swap_video_id_to_creator_id env query).text = query) ∧
    (env.lookup entityId = Except.ok (some []) →
      (swap_video_id_to_creator_id env query).text = query) := by
  refine ⟨fun hc => by simp [swap_video_id_to_creator_id, hfind, hc], ?_, ?_, ?_⟩
  all_goals intro hl
  all_goals by_cases hc : env.connAvailable = false
  all_goals simp [swap_video_id_to_creator_id, hfind, hc, hl]

/-- Witness for C6: a lookup that finds no video leaves the query text
unchanged. -/
theorem c6_fail_open_witness :
    findUuidFrom qVid = some uuidVid ∧
    (swap_video_id_to_creator_id envNoRow qVid).text = qVid :=
  ⟨by decide, (c6_fail_open envNoRow qVid uuidVid (by decide)).2.2.1 rfl⟩

/-- C7: with no UUID-shaped substring the Rewriter returns the input
unchanged with zero lookups; it never runs more than one lookup; the found
token is the leftmost 36-character window matching the pattern; and the
outcome depends on the database only through the connection flag and the
lookup value at that first token. -/
theorem c7_first_match_only (env : DbEnv) (query : List Char) :
    (findUuidFrom query = none →
      swap_video_id_to_creator_id env query = ⟨query, 0⟩) ∧
    (swap_video_id_to_creator_id env query).lookups ≤ 1 ∧
    (∀ u, findUuidFrom query = some u →
      ∃ i, u = (query.drop i).take 36 ∧ uuidShape u = true ∧
        ∀ j, j < i → uuidShape ((query.drop j).take 36) = false) ∧
    (∀ env2 : DbEnv, env.connAvailable = env2.connAvailable →
      (∀ u, findUuidFrom query = some u → env.lookup u = env2.lookup u) →
      swap_video_id_to_creator_id env query = swap_video_id_to_creator_id env2 query) := by
  refine ⟨fun h => by simp [swap_video_id_to_creator_id, h], ?_,
    fun u hu => findUuidFrom_some query u hu, ?_⟩
  · cases hf : findUuidFrom query with
    | none => simp [swap_video_id_to_creator_id, hf]
    | some u =>
      by_cases hc : env.connAvailable = false
      · simp [swap_video_id_to_creator_id, hf, hc]
      · cases hl : env.lookup u with
        | error e => simp [swap_video_id_to_creator_id, hf, hc, hl]
        | ok cr =>
          cases cr with
          | none => simp [swap_video_id_to_creator_id, hf, hc, hl]
          | some v =>
            by_cases hv : v.isEmpty = true <;>
              simp [swap_video_id_to_creator_id, hf, hc, hl, hv]
  · intro env2 hcc hlk
    cases hf : findUuidFrom query with
    | none => simp [swap_video_id_to_creator_id, hf]
    | some u =>
      have hl := hlk u hf
      simp only [swap_video_id_to_creator_id, hf]
      rw [← hcc, ← hl]

/-- Witness for C7 on a query with no UUID-shaped token. -/
theorem c7_first_match_only_witness :
    findUuidFrom qPlain = none ∧
    swap_video_id_to_creator_id envNoRow qPlain = ⟨qPlain, 0⟩ :=
  ⟨by decide, (c7_first_match_only envNoRow qPlain).1 (by decide)⟩

/-- C10 (counterexample): the detection does not match only lowercase
hexadecimal digits.  On `qC10` — an Arabic-Indic-digit 8-4-4-4-12 token
followed by a token whose only non-lowercase-hex character is the uppercase
`A` — the regex matches the Arabic-digit token (whose characters are
neither lowercase hex digits nor hyphens) and one database lookup is
executed, although every UUID-shaped token read over ASCII hex contains an
uppercase letter. -/
theorem c10_claim_counterexample :
    findUuidFrom qC10 = some qArabic ∧
    (swap_video_id_to_creator_id envNoRow qC10).lookups = 1 ∧
    (swap_video_id_to_creator_id envNoRow qC10).text = qC10 ∧
    ∃ c ∈ qArabic, isAsciiHexLower c = false ∧ c ≠ '-' :=
  ⟨by decide, by decide, by decide, by decide⟩

/-- C10 (amended): the regex class also matches Unicode decimal digits,
but never an uppercase hex letter — any window containing one fails the
pattern — so for every input text whose every case-insensitive UUID-shaped
window (same digit class, hex letters of either case) contains at least
one uppercase hex letter, the Rewriter returns the input unchanged and
performs no lookup. -/
theorem c10_uppercase_uuid_ignored :
    (∀ l : List Char, (∃ c ∈ l, isUpperHex c = true) → uuidShape l = false) ∧
    ∀ (env : DbEnv) (query : List Char),
      (∀ i, i ≤ query.length → uuidShapeMixed ((query.drop i).take 36) = true →
        ∃ c ∈ (query.drop i).take 36, isUpperHex c = true) →
      swap_video_id_to_creator_id env query = ⟨query, 0⟩ := by
  have hnomatch : ∀ l : List Char, (∃ c ∈ l, isUpperHex c = true) →
      uuidShape l = false := by
    intro l ⟨c, hc, hup⟩
    rw [Bool.eq_false_iff]
    intro hs
    have := uuidShape_no_upper l hs c hc
    rw [hup] at this
    simp at this
  refine ⟨hnomatch, fun env query h => ?_⟩
  cases hf : findUuidFrom query with
  | none => simp [swap_video_id_to_creator_id, hf]
  | some u =>
    exfalso
    obtain ⟨i, hu, hsh, -⟩ := findUuidFrom_some query u hf
    have hlen : u.length = 36 := uuidShape_length u hsh
    have hile : i ≤ query.length := by
      have hl36 : ((query.drop i).take 36).length = 36 := by
        rw [← hu]
        exact hlen
      rw [List.length_take, List.length_drop] at hl36
      omega
    obtain ⟨c, hcmem, hupper⟩ := h i hile (by rw [← hu]; exact uuidShape_mixed u hsh)
    have hfalse := hnomatch u ⟨c, by rw [hu]; exact hcmem, hupper⟩
    rw [hsh] at hfalse
    simp at hfalse

/-- Witness for C10's amended theorem on a token whose last character is an
uppercase `F`. -/
theorem c10_uppercase_uuid_ignored_witness :
    swap_video_id_to_creator_id envRaise qUpper = ⟨qUpper, 0⟩ :=
  c10_uppercase_uuid_ignored.2 envRaise qUpper (by decide)

/-- C8: a translator result equal to the literal `"ERROR"` makes the
handler reply "could not understand", not the internal-error reply; and the
sentinel passes through the translator's normalization unchanged, so a raw
`"ERROR"` body reaches this branch. -/
theorem c8_sentinel_not_internal (env : BotEnv)
    (h : env.llmResult = some ("ERROR".toList)) :
    handle_query env = Reply.couldNotUnderstand ∧
    handle_query env ≠ Reply.internalError ∧
    normalizeSql ("ERROR".toList) = "ERROR".toList := by
  have h1 : handle_query env = Reply.couldNotUnderstand := by
    simp [handle_query, h]
  refine ⟨h1, ?_, by decide⟩
  rw [h1]
  intro hcontra
  exact Reply.noConfusion hcontra

/-- Witness for C8 on a concrete handler environment. -/
theorem c8_sentinel_not_internal_witness :
    handle_query ⟨some ("ERROR".toList), true, some ("42".toList)⟩ =
      Reply.couldNotUnderstand ∧
    handle_query ⟨some ("ERROR".toList), true, some ("42".toList)⟩ ≠
      Reply.internalError :=
  ⟨(c8_sentinel_not_internal _ rfl).1, (c8_sentinel_not_internal _ rfl).2.1⟩

lemma replaceAllF_fuel_irrel (old new : List Char) :
    ∀ f1 f2 s, s.length ≤ f1 → s.length ≤ f2 →
      replaceAllF old new f1 s = replaceAllF old new f2 s := by
  intro f1
  induction f1 with
  | zero =>
    intro f2 s h1 h2
    obtain rfl : s = [] := List.length_eq_zero.mp (by omega)
    cases f2 <;> rfl
  | succ f ih =>
    intro f2 s h1 h2
    cases s with
    | nil => cases f2 <;> rfl
    | cons c rest =>
      cases f2 with
      | zero => simp at h2
      | succ f2' =>
        simp only [replaceAllF]
        by_cases hp : (old.isPrefixOf (c :: rest) && !old.isEmpty) = true
        · simp only [hp, if_true]
          rw [ih f2' (rest.drop (old.length - 1))
            (by rw [List.length_drop]; simp only [List.length_cons] at h1; omega)
            (by rw [List.length_drop]; simp only [List.length_cons] at h2; omega)]
        · simp only [hp, Bool.false_eq_true, if_false]
          rw [ih f2' rest
            (by simp only [List.length_cons] at h1; omega)
            (by simp only [List.length_cons] at h2; omega)]
